import Mathlib

/-!
Verification of the classification and model-selection core of the
ai-model-advisor repository, as a shallow embedding in Lean 4.

The embedding covers:
* the ModelSelector class (src/lib/recommendation/ModelSelector.js):
  filterByAccuracy, filterByDeployment, rankBySize, getTaskModels and
  getTaskModelsGroupedByTier;
* the classification orchestration in src/routes/+page.svelte:
  the onMount initialization of the embedding classifier and the
  handleClassify handler that routes between the embedding classifier
  and the keyword fallback classifier.

JavaScript conventions are embedded explicitly:
* a possibly-missing object field is an Option;
* the expression `x || y` evaluates to y when x is falsy (null, undefined,
  0, NaN or the empty string), which matters in the rankBySize comparator
  and in the deployment-target check;
* Array.prototype.sort is an in-place stable sort driven by a numeric
  comparator; it is embedded as a stable insertion sort driven by the
  same comparator, which produces the identical output order for the
  total comparators used here;
* numbers are embedded as rationals (every numeric value handled by this
  core is a small decimal, and no claim depends on float rounding).
-/

/-- The four size tiers of the catalog, in priority order
(src/lib/data/constants.js, used by ModelSelector). -/
inductive Tier where
  | lightweight
  | standard
  | advanced
  | xlarge
deriving DecidableEq, Repr

/-- Catalog order of the tiers, as iterated by TIERS.flatMap and
TIERS.forEach in ModelSelector. -/
def TIERS : List Tier := [.lightweight, .standard, .advanced, .xlarge]

/-- The index a tier has in TIERS; getTaskModels stores it as
tierPriority. -/
def tierIdx : Tier → ℕ
  | .lightweight => 0
  | .standard => 1
  | .advanced => 2
  | .xlarge => 3

/-- A catalog model record. accuracy and deploymentOptions are optional
fields of the JSON records, so they are Options here. -/
structure Model where
  id : String
  sizeMB : ℚ
  accuracy : Option ℚ := none
  deploymentOptions : Option (List String) := none
deriving DecidableEq, Repr

/-- A model as tagged by ModelSelector before filtering and ranking:
the spread objects built in getTaskModels (which adds tier, tierPriority,
category and subcategory) and in getTaskModelsGroupedByTier (which adds
tier, category and subcategory but not tierPriority, so tierPriority is
none there). -/
structure TaggedModel where
  model : Model
  tier : Tier
  tierPriority : Option ℕ
  category : String
  subcategory : String
deriving DecidableEq, Repr

/-- The value of the rankBySize comparator
  (a, b) => a.tierPriority - b.tierPriority || a.sizeMB - b.sizeMB.
When either tierPriority is absent, the JavaScript subtraction yields NaN,
which is falsy, so the comparator falls through to the size difference;
when both are present it falls through exactly when the difference is 0. -/
def jsCompare (a b : TaggedModel) : ℚ :=
  match a.tierPriority, b.tierPriority with
  | some ta, some tb =>
      if (ta : ℚ) - tb ≠ 0 then (ta : ℚ) - tb else a.model.sizeMB - b.model.sizeMB
  | _, _ => a.model.sizeMB - b.model.sizeMB

/-- In a stable comparator sort, a may stay before b exactly when the
comparator is nonpositive. -/
def rankLE (a b : TaggedModel) : Bool := decide (jsCompare a b ≤ 0)

/-- Insert a into a list, before the first element it compares
nonpositively against; inserting into an already comparator-sorted list
keeps it sorted and preserves the relative order of ties, which is the
behaviour required of Array.prototype.sort. -/
def rankInsert (a : TaggedModel) : List TaggedModel → List TaggedModel
  | [] => [a]
  | b :: l => if rankLE a b then a :: b :: l else b :: rankInsert a l

/-- ModelSelector.rankBySize: stable sort by the comparator
  a.tierPriority - b.tierPriority || a.sizeMB - b.sizeMB. -/
def rankBySize : List TaggedModel → List TaggedModel
  | [] => []
  | a :: l => rankInsert a (rankBySize l)

/-- Propositional form of the comparator order. -/
def leP (a b : TaggedModel) : Prop := rankLE a b = true

instance : DecidablePred fun p : TaggedModel × TaggedModel => leP p.1 p.2 :=
  fun _ => by unfold leP; infer_instance

theorem jsCompare_neg (a b : TaggedModel) : jsCompare b a = -jsCompare a b := by
  unfold jsCompare
  rcases ha : a.tierPriority with _ | ta <;> rcases hb : b.tierPriority with _ | tb <;>
    simp only [neg_sub]
  by_cases h : (ta : ℚ) - tb = 0
  · have h2 : (tb : ℚ) - ta = 0 := by linarith
    simp [h, h2, neg_sub]
  · have h2 : (tb : ℚ) - ta ≠ 0 := fun hc => h (by linarith)
    simp [h, h2, neg_sub]

theorem rankLE_total (a b : TaggedModel) : rankLE a b = true ∨ rankLE b a = true := by
  unfold rankLE
  rcases le_total (jsCompare a b) 0 with h | h
  · exact Or.inl (decide_eq_true h)
  · right
    apply decide_eq_true
    rw [jsCompare_neg a b]
    linarith

theorem rankLE_of_not (a b : TaggedModel) (h : ¬ rankLE a b = true) : rankLE b a = true :=
  (rankLE_total a b).resolve_left h

/-- The comparator order on two models whose tierPriority is present is
the lexicographic order on (tierPriority, sizeMB). -/
theorem rankLE_some_iff (a b : TaggedModel) (ta tb : ℕ)
    (ha : a.tierPriority = some ta) (hb : b.tierPriority = some tb) :
    rankLE a b = true ↔
      (ta < tb ∨ (ta = tb ∧ a.model.sizeMB ≤ b.model.sizeMB)) := by
  unfold rankLE jsCompare
  rw [ha, hb]
  by_cases h : ta = tb
  · subst h
    simp [sub_nonpos]
  · have hq : (ta : ℚ) - tb ≠ 0 := by
      rw [sub_ne_zero]
      exact_mod_cast h
    have hlt : ((ta : ℚ) - tb ≤ 0) ↔ ta < tb := by
      rw [sub_nonpos]
      constructor
      · intro hle
        exact lt_of_le_of_ne (by exact_mod_cast hle) h
      · intro hlt2
        exact_mod_cast hlt2.le
    simp [hq, hlt, h]

theorem rankLE_trans (a b c : TaggedModel)
    (ha : a.tierPriority.isSome = true) (hb : b.tierPriority.isSome = true)
    (hc : c.tierPriority.isSome = true)
    (hab : rankLE a b = true) (hbc : rankLE b c = true) : rankLE a c = true := by
  obtain ⟨ta, ha⟩ := Option.isSome_iff_exists.mp ha
  obtain ⟨tb, hb⟩ := Option.isSome_iff_exists.mp hb
  obtain ⟨tc, hc⟩ := Option.isSome_iff_exists.mp hc
  rw [rankLE_some_iff a b ta tb ha hb] at hab
  rw [rankLE_some_iff b c tb tc hb hc] at hbc
  rw [rankLE_some_iff a c ta tc ha hc]
  rcases hab with h1 | ⟨h1, s1⟩ <;> rcases hbc with h2 | ⟨h2, s2⟩
  · exact Or.inl (h1.trans h2)
  · exact Or.inl (h2 ▸ h1)
  · exact Or.inl (h1 ▸ h2)
  · exact Or.inr ⟨h1.trans h2, s1.trans s2⟩

theorem mem_rankInsert (x a : TaggedModel) (l : List TaggedModel) :
    x ∈ rankInsert a l ↔ x = a ∨ x ∈ l := by
  induction l with
  | nil => simp [rankInsert]
  | cons b t ih =>
      by_cases h : rankLE a b = true
      · simp [rankInsert, h]
      · simp only [rankInsert, if_neg h, List.mem_cons, ih]
        tauto

theorem mem_rankBySize (x : TaggedModel) (l : List TaggedModel) :
    x ∈ rankBySize l ↔ x ∈ l := by
  induction l with
  | nil => simp [rankBySize]
  | cons a t ih => simp [rankBySize, mem_rankInsert, ih]

theorem length_rankInsert (a : TaggedModel) (l : List TaggedModel) :
    (rankInsert a l).length = l.length + 1 := by
  induction l with
  | nil => simp [rankInsert]
  | cons b t ih =>
      by_cases h : rankLE a b = true <;> simp [rankInsert, h, ih]

theorem length_rankBySize (l : List TaggedModel) :
    (rankBySize l).length = l.length := by
  induction l with
  | nil => simp [rankBySize]
  | cons a t ih => simp [rankBySize, length_rankInsert, ih]

theorem chain'_rankInsert (a : TaggedModel) (l : List TaggedModel)
    (h : l.Chain' leP) : (rankInsert a l).Chain' leP := by
  induction l with
  | nil => simp [rankInsert, leP]
  | cons b t ih =>
      by_cases hab : rankLE a b = true
      · simpa [rankInsert, hab, List.chain'_cons] using ⟨hab, h⟩
      · rw [rankInsert, if_neg hab]
        rw [List.chain'_cons'] at h ⊢
        refine ⟨?_, ih h.2⟩
        intro y hy
        cases t with
        | nil =>
            simp only [rankInsert, List.head?] at hy
            cases hy
            exact rankLE_of_not a b hab
        | cons c t2 =>
            by_cases hac : rankLE a c = true
            · simp only [rankInsert, if_pos hac, List.head?] at hy
              cases hy
              exact rankLE_of_not a b hab
            · simp only [rankInsert, if_neg hac, List.head?] at hy
              cases hy
              exact h.1 _ rfl

theorem chain'_rankBySize (l : List TaggedModel) : (rankBySize l).Chain' leP := by
  induction l with
  | nil => simp [rankBySize]
  | cons a t ih => exact chain'_rankInsert a (rankBySize t) ih

theorem rankBySize_of_chain' (l : List TaggedModel) (h : l.Chain' leP) :
    rankBySize l = l := by
  induction l with
  | nil => rfl
  | cons a t ih =>
      have ht : rankBySize t = t := ih h.tail
      rw [rankBySize, ht]
      cases t with
      | nil => rfl
      | cons b t2 =>
          rw [List.chain'_cons] at h
          have hb : rankLE a b = true := h.1
          simp [rankInsert, hb]

theorem pairwise_rankInsert (a : TaggedModel) (l : List TaggedModel)
    (ha : a.tierPriority.isSome = true) :
    (∀ x ∈ l, x.tierPriority.isSome = true) →
    l.Pairwise leP → (rankInsert a l).Pairwise leP := by
  induction l with
  | nil => intro _ _; simp [rankInsert, leP]
  | cons b t ih =>
      intro hl h
      rw [List.pairwise_cons] at h
      by_cases hab : rankLE a b = true
      · rw [rankInsert, if_pos hab]
        rw [List.pairwise_cons]
        refine ⟨?_, List.pairwise_cons.mpr h⟩
        intro y hy
        rcases List.mem_cons.mp hy with rfl | hyt
        · exact hab
        · exact rankLE_trans a b y ha (hl b (List.mem_cons_self b t))
            (hl y (List.mem_cons_of_mem b hyt)) hab (h.1 y hyt)
      · rw [rankInsert, if_neg hab]
        rw [List.pairwise_cons]
        constructor
        · intro y hy
          rcases (mem_rankInsert y a t).mp hy with hya | hyt
          · have hba : rankLE b a = true := rankLE_of_not a b hab
            rw [hya]
            exact hba
          · exact h.1 y hyt
        · exact ih (fun x hx => hl x (List.mem_cons_of_mem b hx)) h.2

theorem pairwise_rankBySize (l : List TaggedModel) :
    (∀ x ∈ l, x.tierPriority.isSome = true) → (rankBySize l).Pairwise leP := by
  induction l with
  | nil => intro _; simp [rankBySize]
  | cons a t ih =>
      intro hl
      exact pairwise_rankInsert a (rankBySize t)
        (hl a (List.mem_cons_self a t))
        (fun x hx => hl x (List.mem_cons_of_mem a ((mem_rankBySize x t).mp hx)))
        (ih fun x hx => hl x (List.mem_cons_of_mem a hx))

theorem rankLE_congr (f : TaggedModel → TaggedModel)
    (hf : ∀ m, (f m).tierPriority = m.tierPriority ∧ (f m).model.sizeMB = m.model.sizeMB)
    (a b : TaggedModel) : rankLE (f a) (f b) = rankLE a b := by
  unfold rankLE jsCompare
  rw [(hf a).1, (hf a).2, (hf b).1, (hf b).2]

theorem rankInsert_map (f : TaggedModel → TaggedModel)
    (hf : ∀ m, (f m).tierPriority = m.tierPriority ∧ (f m).model.sizeMB = m.model.sizeMB)
    (a : TaggedModel) (l : List TaggedModel) :
    rankInsert (f a) (l.map f) = (rankInsert a l).map f := by
  induction l with
  | nil => simp [rankInsert]
  | cons b t ih =>
      by_cases h : rankLE a b = true <;>
        simp [rankInsert, rankLE_congr f hf, h, ih]

theorem rankBySize_map (f : TaggedModel → TaggedModel)
    (hf : ∀ m, (f m).tierPriority = m.tierPriority ∧ (f m).model.sizeMB = m.model.sizeMB)
    (l : List TaggedModel) : rankBySize (l.map f) = (rankBySize l).map f := by
  induction l with
  | nil => simp [rankBySize]
  | cons a t ih => simp [rankBySize, ih, rankInsert_map f hf]

/-- The { filtered, total, hidden } object returned by the two filter
methods of ModelSelector. -/
structure FilterResult where
  filtered : List TaggedModel
  total : ℕ
  hidden : ℕ
deriving DecidableEq, Repr

/-- ModelSelector.filterByAccuracy. A threshold of exactly 0 short-circuits
to no filtering; otherwise models are kept when their accuracy (a missing
accuracy field reads as 0) is at least threshold / 100. -/
def filterByAccuracy (models : List TaggedModel) (threshold : ℚ) : FilterResult :=
  if threshold = 0 then
    { filtered := models, total := models.length, hidden := 0 }
  else
    let thresholdDecimal := threshold / 100
    let filtered := models.filter fun model => model.model.accuracy.getD 0 ≥ thresholdDecimal
    { filtered := filtered, total := models.length,
      hidden := models.length - filtered.length }

/-- The targetMatches allow-set table of ModelSelector.filterByDeployment,
including the fallback to the singleton of the target itself for a target
outside the table. -/
def targetMatches (t : String) : List String :=
  if t = "browser" then ["browser"]
  else if t = "edge" then ["browser", "edge", "mobile"]
  else if t = "cloud" then ["cloud", "server", "edge", "browser", "mobile"]
  else [t]

/-- ModelSelector.filterByDeployment. The guard in the source is the JS
truthiness test !deploymentTarget, so both null and the empty string mean
no filtering; otherwise a model is kept when some of its deploymentOptions
(a missing field reads as the empty array) is in the allow set. -/
def filterByDeployment (models : List TaggedModel) (deploymentTarget : Option String) :
    FilterResult :=
  match deploymentTarget with
  | none => { filtered := models, total := models.length, hidden := 0 }
  | some t =>
      if t = "" then { filtered := models, total := models.length, hidden := 0 }
      else
        let allowed := targetMatches t
        let filtered := models.filter fun model =>
          (model.model.deploymentOptions.getD []).any fun opt => allowed.contains opt
        { filtered := filtered, total := models.length,
          hidden := models.length - filtered.length }

/-- A tier bucket of the catalog JSON: each tier key is optional and holds
an array of model records. -/
def TaskData : Type := Tier → Option (List Model)

/-- The models.json catalog as held by ModelSelector: a nested mapping
category, then subcategory, each level possibly missing. -/
structure ModelsData where
  models : String → Option (String → Option TaskData)

/-- The optional-chaining lookup this.modelsData.models[category]?.[subcategory]. -/
def taskDataOf (d : ModelsData) (category subcategory : String) : Option TaskData :=
  match d.models category with
  | none => none
  | some subs => subs subcategory

/-- ModelSelector.getTaskModels: all models of a (category, subcategory),
flattened over TIERS in order and tagged with tier, tierPriority (the tier
index), category and subcategory. -/
def getTaskModels (d : ModelsData) (category subcategory : String) : List TaggedModel :=
  match taskDataOf d category subcategory with
  | none => []
  | some taskData =>
      TIERS.enum.flatMap fun p =>
        ((taskData p.2).getD []).map fun model =>
          { model := model, tier := p.2, tierPriority := some p.1,
            category := category, subcategory := subcategory }

/-- ModelSelector.rankBySize applied after getTaskModels, then truncated:
ModelSelector.selectModels. -/
def selectModels (d : ModelsData) (category subcategory : String) (maxResults : ℕ) :
    List TaggedModel :=
  (rankBySize (getTaskModels d category subcategory)).take maxResults

/-- One tier of the grouped result: the ranked surviving models and the
count hidden by the two filters. -/
structure TierGroup where
  models : List TaggedModel
  hidden : ℕ
deriving DecidableEq, Repr

/-- The object built by getTaskModelsGroupedByTier. -/
structure GroupedResult where
  lightweight : TierGroup
  standard : TierGroup
  advanced : TierGroup
  xlarge : TierGroup
  totalHidden : ℕ
  totalShown : ℕ
deriving DecidableEq, Repr

/-- The empty-but-well-formed structure getTaskModelsGroupedByTier returns
when the (category, subcategory) pair has no entry in the catalog. -/
def emptyGrouped : GroupedResult :=
  { lightweight := { models := [], hidden := 0 },
    standard := { models := [], hidden := 0 },
    advanced := { models := [], hidden := 0 },
    xlarge := { models := [], hidden := 0 },
    totalHidden := 0, totalShown := 0 }

/-- The tier tagging inside getTaskModelsGroupedByTier: the spread adds
tier, category and subcategory but, unlike getTaskModels, no tierPriority,
so the rankBySize comparator then falls through to sizeMB alone (which
coincides with the getTaskModels ordering inside a single tier). -/
def tagForTier (category subcategory : String) (tier : Tier) (ms : List Model) :
    List TaggedModel :=
  ms.map fun model =>
    { model := model, tier := tier, tierPriority := none,
      category := category, subcategory := subcategory }

/-- The per-tier body of the TIERS.forEach loop of
getTaskModelsGroupedByTier: accuracy filter, then deployment filter on its
survivors, then ranking; paired with the number of models this tier shows
(deployResult.filtered.length, added to totalShown). -/
def processTier (taskData : TaskData) (category subcategory : String)
    (accuracyThreshold : ℚ) (deploymentTarget : Option String) (tier : Tier) :
    TierGroup × ℕ :=
  let tierModels := tagForTier category subcategory tier ((taskData tier).getD [])
  let accuracyResult := filterByAccuracy tierModels accuracyThreshold
  let deployResult := filterByDeployment accuracyResult.filtered deploymentTarget
  ({ models := rankBySize deployResult.filtered,
     hidden := accuracyResult.hidden + deployResult.hidden },
   deployResult.filtered.length)

/-- ModelSelector.getTaskModelsGroupedByTier. The mutating forEach over
TIERS is unrolled into the four tiers in TIERS order, with totalHidden and
totalShown the running sums it accumulates. -/
def getTaskModelsGroupedByTier (d : ModelsData) (category subcategory : String)
    (accuracyThreshold : ℚ) (deploymentTarget : Option String) : GroupedResult :=
  match taskDataOf d category subcategory with
  | none => emptyGrouped
  | some taskData =>
      let lw := processTier taskData category subcategory accuracyThreshold deploymentTarget .lightweight
      let st := processTier taskData category subcategory accuracyThreshold deploymentTarget .standard
      let ad := processTier taskData category subcategory accuracyThreshold deploymentTarget .advanced
      let xl := processTier taskData category subcategory accuracyThreshold deploymentTarget .xlarge
      { lightweight := lw.1, standard := st.1, advanced := ad.1, xlarge := xl.1,
        totalHidden := lw.1.hidden + st.1.hidden + ad.1.hidden + xl.1.hidden,
        totalShown := lw.2 + st.2 + ad.2 + xl.2 }

/-- The raw (untagged) model list a tier contributes for a
(category, subcategory) pair, empty when the pair or the tier key is
missing from the catalog. -/
def tierRaw (d : ModelsData) (category subcategory : String) (tier : Tier) : List Model :=
  match taskDataOf d category subcategory with
  | none => []
  | some taskData => (taskData tier).getD []

/-- The tagged input list the grouped pipeline starts from for one tier. -/
def tierModelsFor (d : ModelsData) (category subcategory : String) (tier : Tier) :
    List TaggedModel :=
  tagForTier category subcategory tier (tierRaw d category subcategory tier)

theorem filterByAccuracy_nil (threshold : ℚ) :
    filterByAccuracy [] threshold = { filtered := [], total := 0, hidden := 0 } := by
  unfold filterByAccuracy
  split <;> rfl

theorem filterByDeployment_nil (target : Option String) :
    filterByDeployment [] target = { filtered := [], total := 0, hidden := 0 } := by
  unfold filterByDeployment
  rcases target with _ | t
  · rfl
  · simp only
    split <;> rfl

/-- A prediction record inside a classifier result; category and
subcategory are optional fields. -/
structure Prediction where
  category : Option String := none
  subcategory : Option String := none
deriving DecidableEq, Repr

/-- The result object a classifier resolves with in +page.svelte:
subcategoryPredictions or predictions arrays, plus a confidence. -/
structure ClassifyResult where
  subcategoryPredictions : Option (List Prediction) := none
  predictions : Option (List Prediction) := none
  confidence : Option ℚ := none
deriving DecidableEq, Repr

/-- The mutable page state of +page.svelte that the classification flow
reads and writes: the routing flags set during initialization and the
classifier pre-fill fields written by handleClassify. -/
structure PageState where
  usingFallback : Bool
  classifierReady : Bool
  prefillCategory : Option String
  prefillSubcategory : Option String
  prefillConfidence : ℚ
deriving DecidableEq, Repr

/-- Which classifier a classification call uses. -/
inductive Route where
  | embedding
  | fallback
deriving DecidableEq, Repr

/-- The routing test of handleClassify:
  if (!usingFallback && classifierReady) use the embedding classifier,
  otherwise the fallback classifier. -/
def chooseRoute (s : PageState) : Route :=
  if !s.usingFallback && s.classifierReady then .embedding else .fallback

/-- The expression
  result.subcategoryPredictions?.[0] || result.predictions?.[0]:
indexing a missing or empty array gives undefined, which is falsy root of
the fallthrough to predictions. -/
def firstPrediction (r : ClassifyResult) : Option Prediction :=
  match (r.subcategoryPredictions.getD []).head? with
  | some p => some p
  | none => (r.predictions.getD []).head?

/-- The body of the if (topPrediction?.category) block of handleClassify:
the pre-fill fields are overwritten from the top prediction, with the JS
falsy tests on the strings (an empty category string skips the block, an
empty subcategory becomes null) and confidence || 0 for the confidence. -/
def prefillUpdate (s : PageState) (r : ClassifyResult) : PageState :=
  match firstPrediction r with
  | none => s
  | some p =>
      match p.category with
      | none => s
      | some c =>
          if c = "" then s
          else
            { s with
              prefillCategory := some c,
              prefillSubcategory :=
                match p.subcategory with
                | none => none
                | some sc => if sc = "" then none else some sc,
              prefillConfidence := r.confidence.getD 0 }

/-- The try block of handleClassify: await the routed classifier and, on
success, apply the pre-fill update. A rejected await aborts the block. -/
def classifyBody (s : PageState)
    (embeddingOutcome fallbackOutcome : Except String ClassifyResult) :
    Except String PageState :=
  match (match chooseRoute s with
         | .embedding => embeddingOutcome
         | .fallback => fallbackOutcome) with
  | .error e => .error e
  | .ok result => .ok (prefillUpdate s result)

/-- The whole handleClassify handler of +page.svelte: the try block with
its catch, which only logs a warning, so the handler always returns
normally (classifier failure is not critical and never escapes). -/
def handleClassify (s : PageState)
    (embeddingOutcome fallbackOutcome : Except String ClassifyResult) : PageState :=
  match classifyBody s embeddingOutcome fallbackOutcome with
  | .error _ => s
  | .ok s2 => s2

/-- The discrete progress states the embedding classifier initialization
reports to the onProgress callback in onMount. -/
inductive ProgressStatus where
  | downloading
  | loading
  | computing
  | ready
  | error
deriving DecidableEq, Repr

/-- The onProgress callback of onMount, restricted to the routing flags:
ready sets classifierReady, error sets usingFallback, and the three
in-flight states only touch the progress display. -/
def applyProgress (s : PageState) (e : ProgressStatus) : PageState :=
  match e with
  | .ready => { s with classifierReady := true }
  | .error => { s with usingFallback := true }
  | _ => s

/-- The code after await taskClassifier.initialize(tasksData) in onMount:
on success the page is marked ready and fallback is cleared, otherwise
usingFallback is set for the rest of the session. -/
def afterInit (s : PageState) (success : Bool) : PageState :=
  if success then { s with classifierReady := true, usingFallback := false }
  else { s with usingFallback := true }

/-- The page state as declared at component creation: both flags false,
no pre-fill. -/
def initialState : PageState :=
  { usingFallback := false, classifierReady := false,
    prefillCategory := none, prefillSubcategory := none, prefillConfidence := 0 }

/-- A whole initialization: the progress events seen by onProgress in
order, then the initialize result. -/
def initSession (events : List ProgressStatus) (success : Bool) : PageState :=
  afterInit (events.foldl applyProgress initialState) success

/-- A session of classification calls: each call carries the outcome the
embedding classifier would produce and the outcome the fallback classifier
produces, and handleClassify consumes them in order. -/
def runCalls (s : PageState) :
    List (Except String ClassifyResult × Except String ClassifyResult) → PageState
  | [] => s
  | c :: rest => runCalls (handleClassify s c.1 c.2) rest

theorem prefillUpdate_flags (s : PageState) (r : ClassifyResult) :
    (prefillUpdate s r).usingFallback = s.usingFallback ∧
    (prefillUpdate s r).classifierReady = s.classifierReady := by
  unfold prefillUpdate
  repeat' split
  all_goals exact ⟨rfl, rfl⟩

theorem handleClassify_flags (s : PageState)
    (e f : Except String ClassifyResult) :
    (handleClassify s e f).usingFallback = s.usingFallback ∧
    (handleClassify s e f).classifierReady = s.classifierReady := by
  unfold handleClassify
  rcases hcb : classifyBody s e f with err | s2
  · simp [hcb]
  · simp only [hcb]
    unfold classifyBody at hcb
    rcases hr : (match chooseRoute s with
                 | Route.embedding => e
                 | Route.fallback => f) with err2 | r
    · rw [hr] at hcb
      cases hcb
    · rw [hr] at hcb
      cases hcb
      exact prefillUpdate_flags s r

theorem chooseRoute_of_usingFallback (s : PageState) (h : s.usingFallback = true) :
    chooseRoute s = .fallback := by
  unfold chooseRoute
  simp [h]

theorem handleClassify_of_usingFallback (s : PageState) (h : s.usingFallback = true)
    (e e2 f : Except String ClassifyResult) :
    handleClassify s e f = handleClassify s e2 f := by
  unfold handleClassify classifyBody
  rw [chooseRoute_of_usingFallback s h]

theorem runCalls_usingFallback (s : PageState) (h : s.usingFallback = true) :
    ∀ calls, (runCalls s calls).usingFallback = true := by
  intro calls
  induction calls generalizing s with
  | nil => exact h
  | cons c rest ih =>
      exact ih (handleClassify s c.1 c.2) (((handleClassify_flags s c.1 c.2).1).trans h)

theorem initSession_failure_usingFallback (events : List ProgressStatus) :
    (initSession events false).usingFallback = true := by
  unfold initSession afterInit
  simp

/-- Tier accessor for the grouped result object. -/
def tierGroupOf (g : GroupedResult) : Tier → TierGroup
  | .lightweight => g.lightweight
  | .standard => g.standard
  | .advanced => g.advanced
  | .xlarge => g.xlarge

/-- A model a is ranked before a model b in a list when they occupy
positions i before j of it. -/
def ranksBefore (l : List TaggedModel) (a b : TaggedModel) : Prop :=
  ∃ (i j : ℕ) (hi : i < l.length) (hj : j < l.length),
    i < j ∧ l.get ⟨i, hi⟩ = a ∧ l.get ⟨j, hj⟩ = b

/-- The lightweight model of the deployment-filter test fixture
(tests/deployment-filter.test.js): accuracy 0.77,
deploymentOptions [browser, mobile]. -/
def browserModel : Model :=
  { id := "browser-model", sizeMB := 20, accuracy := some (77/100),
    deploymentOptions := some ["browser", "mobile"] }

/-- The standard model of the fixture: accuracy 0.88,
deploymentOptions [browser]. -/
def standardBrowserModel : Model :=
  { id := "standard-browser", sizeMB := 300, accuracy := some (88/100),
    deploymentOptions := some ["browser"] }

/-- The computer_vision / image_classification bucket of the fixture. -/
def fixtureTaskData : TaskData := fun tier =>
  match tier with
  | .lightweight => some [browserModel]
  | .standard => some [standardBrowserModel]
  | .advanced => none
  | .xlarge => none

/-- The fixture catalog with one lightweight and one standard model under
computer_vision / image_classification. -/
def fixtureData : ModelsData :=
  { models := fun category =>
      if category = "computer_vision" then
        some fun subcategory =>
          if subcategory = "image_classification" then some fixtureTaskData else none
      else none }

/-- The 0.88 standard model as tagged by getTaskModelsGroupedByTier. -/
def taggedStandardBrowser : TaggedModel :=
  { model := standardBrowserModel, tier := .standard, tierPriority := none,
    category := "computer_vision", subcategory := "image_classification" }

theorem fixture_taskData :
    taskDataOf fixtureData "computer_vision" "image_classification" = some fixtureTaskData := by
  simp [taskDataOf, fixtureData]

theorem fixture_lightweight :
    processTier fixtureTaskData "computer_vision" "image_classification" 85 (some "browser")
      Tier.lightweight = ({ models := [], hidden := 1 }, 0) := by
  simp only [processTier]
  have hacc : filterByAccuracy
      (tagForTier "computer_vision" "image_classification" Tier.lightweight
        ((fixtureTaskData Tier.lightweight).getD [])) 85
      = { filtered := [], total := 1, hidden := 1 } := by
    unfold filterByAccuracy tagForTier fixtureTaskData browserModel
    norm_num [List.filter]
  rw [hacc]
  simp [filterByDeployment_nil, rankBySize]

theorem fixture_standard :
    processTier fixtureTaskData "computer_vision" "image_classification" 85 (some "browser")
      Tier.standard = ({ models := [taggedStandardBrowser], hidden := 0 }, 1) := by
  simp only [processTier]
  have hacc : filterByAccuracy
      (tagForTier "computer_vision" "image_classification" Tier.standard
        ((fixtureTaskData Tier.standard).getD [])) 85
      = { filtered := [taggedStandardBrowser], total := 1, hidden := 0 } := by
    unfold filterByAccuracy tagForTier fixtureTaskData standardBrowserModel taggedStandardBrowser
    norm_num [List.filter, standardBrowserModel]
  rw [hacc]
  have hdep : filterByDeployment [taggedStandardBrowser] (some "browser")
      = { filtered := [taggedStandardBrowser], total := 1, hidden := 0 } := by
    unfold filterByDeployment targetMatches taggedStandardBrowser standardBrowserModel
    simp
  rw [hdep]
  have hle : rankLE taggedStandardBrowser taggedStandardBrowser = true := by
    unfold rankLE jsCompare taggedStandardBrowser standardBrowserModel
    norm_num
  simp [rankBySize, rankInsert]

theorem fixture_empty_tier (tier : Tier) (h : (fixtureTaskData tier).getD [] = []) :
    processTier fixtureTaskData "computer_vision" "image_classification" 85 (some "browser")
      tier = ({ models := [], hidden := 0 }, 0) := by
  simp only [processTier]
  rw [h]
  simp [tagForTier, filterByAccuracy_nil, filterByDeployment_nil, rankBySize]

theorem fixture_grouped :
    getTaskModelsGroupedByTier fixtureData "computer_vision" "image_classification" 85
        (some "browser")
      = { lightweight := { models := [], hidden := 1 },
          standard := { models := [taggedStandardBrowser], hidden := 0 },
          advanced := { models := [], hidden := 0 },
          xlarge := { models := [], hidden := 0 },
          totalHidden := 1, totalShown := 1 } := by
  unfold getTaskModelsGroupedByTier
  rw [fixture_taskData]
  simp only [fixture_lightweight, fixture_standard,
    fixture_empty_tier Tier.advanced rfl, fixture_empty_tier Tier.xlarge rfl]

theorem handleClassify_error (s : PageState) (err : String) :
    handleClassify s (.error err) (.error err) = s := by
  unfold handleClassify classifyBody
  cases chooseRoute s <;> rfl

theorem runCalls_indep (s : PageState) (h : s.usingFallback = true) :
    ∀ (calls calls2 : List (Except String ClassifyResult × Except String ClassifyResult)),
      calls.map Prod.snd = calls2.map Prod.snd → runCalls s calls = runCalls s calls2 := by
  intro calls
  induction calls generalizing s with
  | nil =>
      intro calls2 h2
      cases calls2 with
      | nil => rfl
      | cons c2 rest2 => simp at h2
  | cons c rest ih =>
      intro calls2 h2
      cases calls2 with
      | nil => simp at h2
      | cons c2 rest2 =>
          simp only [List.map_cons, List.cons.injEq] at h2
          unfold runCalls
          have hc : handleClassify s c.1 c.2 = handleClassify s c2.1 c2.2 := by
            rw [h2.1]
            exact handleClassify_of_usingFallback s h c.1 c2.1 c2.2
          rw [hc]
          exact ih (handleClassify s c2.1 c2.2)
            (((handleClassify_flags s c2.1 c2.2).1).trans h) rest2 h2.2

/-- A tier-tagged model with two same-size companions, used to exercise
the ranking claims on concrete inputs. Its size ties with cexB. -/
def cexA : TaggedModel :=
  { model := { id := "a", sizeMB := 100 }, tier := .standard, tierPriority := some 1,
    category := "c", subcategory := "s" }

/-- A second model of the same tier and the same sizeMB as cexA. -/
def cexB : TaggedModel :=
  { model := { id := "b", sizeMB := 100 }, tier := .standard, tierPriority := some 1,
    category := "c", subcategory := "s" }

/-- A lightweight tagged model as getTaskModels tags it. -/
def witTagged : TaggedModel :=
  { model := { id := "w", sizeMB := 10 }, tier := .lightweight, tierPriority := some 0,
    category := "c", subcategory := "s" }

/-- A model that runs in the browser, for the filter witnesses. -/
def demoBrowser : TaggedModel :=
  { model := { id := "m1", sizeMB := 20, deploymentOptions := some ["browser"] },
    tier := .lightweight, tierPriority := none, category := "c", subcategory := "s" }

/-- A model with neither accuracy nor deploymentOptions fields. -/
def demoBare : TaggedModel :=
  { model := { id := "m2", sizeMB := 30 },
    tier := .lightweight, tierPriority := none, category := "c", subcategory := "s" }

/-- A catalog with no entries at all. -/
def noCatalog : ModelsData := { models := fun _ => none }

/-- The page state after a successful initialization, ready to route to
the embedding classifier. -/
def readyState : PageState :=
  { usingFallback := false, classifierReady := true,
    prefillCategory := none, prefillSubcategory := none, prefillConfidence := 0 }

/-- A classifier result whose winning label has confidence 0.10, far
below the 0.70 policy threshold of the specification. -/
def lowConfidenceResult : ClassifyResult :=
  { subcategoryPredictions :=
      some [{ category := some "computer_vision", subcategory := some "image_classification" }],
    predictions := none,
    confidence := some (1/10) }

theorem filterByAccuracy_pos (models : List TaggedModel) (threshold : ℚ)
    (hne : threshold ≠ 0) :
    filterByAccuracy models threshold =
      { filtered := models.filter fun m => m.model.accuracy.getD 0 ≥ threshold / 100,
        total := models.length,
        hidden := models.length -
          (models.filter fun m => m.model.accuracy.getD 0 ≥ threshold / 100).length } := by
  simp only [filterByAccuracy, if_neg hne]

theorem filterByDeployment_some (models : List TaggedModel) (t : String) (ht : t ≠ "") :
    filterByDeployment models (some t) =
      { filtered := models.filter fun m =>
          (m.model.deploymentOptions.getD []).any fun opt => (targetMatches t).contains opt,
        total := models.length,
        hidden := models.length -
          (models.filter fun m =>
            (m.model.deploymentOptions.getD []).any fun opt =>
              (targetMatches t).contains opt).length } := by
  simp only [filterByDeployment, if_neg ht]

theorem mem_filterByDeployment (models : List TaggedModel) (t : String) (ht : t ≠ "")
    (m : TaggedModel) :
    m ∈ (filterByDeployment models (some t)).filtered ↔
      m ∈ models ∧ ∃ o ∈ m.model.deploymentOptions.getD [], o ∈ targetMatches t := by
  rw [filterByDeployment_some models t ht]
  rw [List.mem_filter]
  simp [List.any_eq_true]

theorem targetMatches_browser : targetMatches "browser" = ["browser"] := by
  rfl

theorem targetMatches_edge : targetMatches "edge" = ["browser", "edge", "mobile"] := by
  rfl

theorem targetMatches_cloud :
    targetMatches "cloud" = ["cloud", "server", "edge", "browser", "mobile"] := by
  rfl

/-- C2: filterByAccuracy with threshold 0 returns the input list
unchanged with hidden 0 (models with a missing accuracy field included);
with any non-zero threshold it keeps exactly the models whose accuracy,
read as 0 when the field is missing, is at least threshold / 100, and
reports hidden as input length minus kept length; for the positive
thresholds of the documented 0-95 parameter range every model with a
missing accuracy field is excluded. -/
theorem c2_filterByAccuracy_spec (models : List TaggedModel) (threshold : ℚ) :
    (threshold = 0 →
      (filterByAccuracy models threshold).filtered = models ∧
      (filterByAccuracy models threshold).hidden = 0) ∧
    (threshold ≠ 0 →
      (filterByAccuracy models threshold).filtered =
        models.filter (fun m => m.model.accuracy.getD 0 ≥ threshold / 100) ∧
      (filterByAccuracy models threshold).hidden =
        models.length - (filterByAccuracy models threshold).filtered.length) ∧
    (0 < threshold →
      ∀ m ∈ models, m.model.accuracy = none →
        m ∉ (filterByAccuracy models threshold).filtered) := by
  refine ⟨?_, ?_, ?_⟩
  · intro h0
    simp [filterByAccuracy, h0]
  · intro hne
    rw [filterByAccuracy_pos models threshold hne]
    exact ⟨rfl, rfl⟩
  · intro hpos m hm hnone
    have hne : threshold ≠ 0 := ne_of_gt hpos
    rw [filterByAccuracy_pos models threshold hne]
    intro hmem
    rw [List.mem_filter] at hmem
    have hge : (0 : ℚ) ≥ threshold / 100 := by
      simpa [hnone] using hmem.2
    have hlt : (0 : ℚ) < threshold / 100 := div_pos hpos (by norm_num)
    linarith

/-- C3: filterByDeployment with target null is the identity with hidden
0; with target browser, edge or cloud it keeps exactly the models whose
deploymentOptions meets the respective allow set, browser yielding the
set with browser alone, edge the set browser, edge, mobile, and cloud the
set browser, edge, mobile, cloud, server; hidden is always the input
length minus the kept length. -/
theorem c3_filterByDeployment_spec (models : List TaggedModel) :
    ((filterByDeployment models none).filtered = models ∧
     (filterByDeployment models none).hidden = 0) ∧
    (∀ m, m ∈ (filterByDeployment models (some "browser")).filtered ↔
       m ∈ models ∧ ∃ o ∈ m.model.deploymentOptions.getD [],
         o ∈ (["browser"] : List String)) ∧
    (∀ m, m ∈ (filterByDeployment models (some "edge")).filtered ↔
       m ∈ models ∧ ∃ o ∈ m.model.deploymentOptions.getD [],
         o ∈ (["browser", "edge", "mobile"] : List String)) ∧
    (∀ m, m ∈ (filterByDeployment models (some "cloud")).filtered ↔
       m ∈ models ∧ ∃ o ∈ m.model.deploymentOptions.getD [],
         o ∈ (["browser", "edge", "mobile", "cloud", "server"] : List String)) ∧
    (∀ t : String, (filterByDeployment models (some t)).hidden =
       models.length - (filterByDeployment models (some t)).filtered.length) := by
  refine ⟨⟨rfl, rfl⟩, ?_, ?_, ?_, ?_⟩
  · intro m
    rw [mem_filterByDeployment models "browser" (by decide) m, targetMatches_browser]
  · intro m
    rw [mem_filterByDeployment models "edge" (by decide) m, targetMatches_edge]
  · intro m
    rw [mem_filterByDeployment models "cloud" (by decide) m, targetMatches_cloud]
    apply and_congr_right
    intro _
    apply exists_congr
    intro o
    apply and_congr_right
    intro _
    simp only [List.mem_cons, List.not_mem_nil, or_false]
    tauto
  · intro t
    by_cases h : t = ""
    · subst h
      simp [filterByDeployment]
    · rw [filterByDeployment_some models t h]

/-- C8: the models kept by filterByDeployment for target cloud include
every model kept for target browser on the same input, because the
browser allow set is contained in the cloud allow set. -/
theorem c8_cloud_superset_of_browser (models : List TaggedModel) (m : TaggedModel)
    (h : m ∈ (filterByDeployment models (some "browser")).filtered) :
    m ∈ (filterByDeployment models (some "cloud")).filtered := by
  rw [mem_filterByDeployment models "browser" (by decide) m, targetMatches_browser] at h
  rw [mem_filterByDeployment models "cloud" (by decide) m, targetMatches_cloud]
  obtain ⟨hm, o, ho, hob⟩ := h
  refine ⟨hm, o, ho, ?_⟩
  simp only [List.mem_cons, List.not_mem_nil, or_false] at hob ⊢
  tauto

theorem c8_witness :
    demoBrowser ∈ (filterByDeployment [demoBrowser] (some "cloud")).filtered := by
  apply c8_cloud_superset_of_browser [demoBrowser] demoBrowser
  rw [mem_filterByDeployment [demoBrowser] "browser" (by decide) demoBrowser,
    targetMatches_browser]
  exact ⟨List.mem_singleton.mpr rfl, "browser", by simp [demoBrowser], by simp⟩

/-- C9: rankBySize is idempotent, because its output is always ordered
under the comparator and sorting an already-ordered list is the
identity. -/
theorem c9_rank_idempotent (models : List TaggedModel) :
    rankBySize (rankBySize models) = rankBySize models :=
  rankBySize_of_chain' (rankBySize models) (chain'_rankBySize models)

/-- C10: for every non-null deployment target (the empty string is
JS-falsy and selects the no-filtering branch exactly like null, so a
target here is any non-empty string, covering the documented browser,
edge and cloud), a model whose deploymentOptions field is missing or
empty is excluded by filterByDeployment: the missing field reads as the
empty array, which meets no allow set. -/
theorem c10_missing_options_excluded (models : List TaggedModel) (t : String) (ht : t ≠ "")
    (m : TaggedModel) (hm : m ∈ models)
    (hopts : m.model.deploymentOptions = none ∨ m.model.deploymentOptions = some []) :
    m ∉ (filterByDeployment models (some t)).filtered := by
  rw [mem_filterByDeployment models t ht m]
  rintro ⟨-, o, ho, -⟩
  rcases hopts with h | h <;> simp [h] at ho

theorem c10_witness :
    demoBare ∉ (filterByDeployment [demoBare] (some "browser")).filtered :=
  c10_missing_options_excluded [demoBare] "browser" (by decide) demoBare
    (List.mem_singleton.mpr rfl) (Or.inl rfl)

/-- C1: getTaskModelsGroupedByTier processes every tier independently,
applying the accuracy filter, then the deployment filter to the accuracy
survivors, then ranking; each reported tier hidden count is the sum of
the two filters' exclusions, totalShown and totalHidden are the sums of
the per-tier shown and hidden counts, and on the fixture with one
lightweight model of accuracy 0.77 deployable to browser and mobile and
one standard model of accuracy 0.88 deployable to browser, the call with
threshold 85 and target browser leaves the lightweight tier empty, the
standard tier with exactly the 0.88 model, and totalShown 1. -/
theorem c1_groupedByTier_pipeline :
    (∀ (d : ModelsData) (category subcategory : String) (accuracyThreshold : ℚ)
       (deploymentTarget : Option String) (tier : Tier),
       tierGroupOf
           (getTaskModelsGroupedByTier d category subcategory accuracyThreshold
             deploymentTarget) tier =
         { models := rankBySize (filterByDeployment
             (filterByAccuracy (tierModelsFor d category subcategory tier)
               accuracyThreshold).filtered deploymentTarget).filtered,
           hidden := (filterByAccuracy (tierModelsFor d category subcategory tier)
               accuracyThreshold).hidden +
             (filterByDeployment
               (filterByAccuracy (tierModelsFor d category subcategory tier)
                 accuracyThreshold).filtered deploymentTarget).hidden }) ∧
    (∀ (d : ModelsData) (category subcategory : String) (accuracyThreshold : ℚ)
       (deploymentTarget : Option String),
       (getTaskModelsGroupedByTier d category subcategory accuracyThreshold
           deploymentTarget).totalShown =
         (getTaskModelsGroupedByTier d category subcategory accuracyThreshold
           deploymentTarget).lightweight.models.length +
         (getTaskModelsGroupedByTier d category subcategory accuracyThreshold
           deploymentTarget).standard.models.length +
         (getTaskModelsGroupedByTier d category subcategory accuracyThreshold
           deploymentTarget).advanced.models.length +
         (getTaskModelsGroupedByTier d category subcategory accuracyThreshold
           deploymentTarget).xlarge.models.length ∧
       (getTaskModelsGroupedByTier d category subcategory accuracyThreshold
           deploymentTarget).totalHidden =
         (getTaskModelsGroupedByTier d category subcategory accuracyThreshold
           deploymentTarget).lightweight.hidden +
         (getTaskModelsGroupedByTier d category subcategory accuracyThreshold
           deploymentTarget).standard.hidden +
         (getTaskModelsGroupedByTier d category subcategory accuracyThreshold
           deploymentTarget).advanced.hidden +
         (getTaskModelsGroupedByTier d category subcategory accuracyThreshold
           deploymentTarget).xlarge.hidden) ∧
    (getTaskModelsGroupedByTier fixtureData "computer_vision" "image_classification" 85
      (some "browser")).lightweight.models = [] ∧
    (getTaskModelsGroupedByTier fixtureData "computer_vision" "image_classification" 85
      (some "browser")).standard.models = [taggedStandardBrowser] ∧
    (getTaskModelsGroupedByTier fixtureData "computer_vision" "image_classification" 85
      (some "browser")).totalShown = 1 := by
  refine ⟨?_, ?_, ?_, ?_, ?_⟩
  · intro d category subcategory accuracyThreshold deploymentTarget tier
    rcases h : taskDataOf d category subcategory with _ | td
    · simp only [getTaskModelsGroupedByTier, h, tierModelsFor, tierRaw]
      cases tier <;>
        simp [tierGroupOf, emptyGrouped, tagForTier, filterByAccuracy_nil,
          filterByDeployment_nil, rankBySize]
    · simp only [getTaskModelsGroupedByTier, h, tierModelsFor, tierRaw]
      cases tier <;> rfl
  · intro d category subcategory accuracyThreshold deploymentTarget
    rcases h : taskDataOf d category subcategory with _ | td
    · simp [getTaskModelsGroupedByTier, h, emptyGrouped]
    · simp only [getTaskModelsGroupedByTier, h]
      constructor
      · simp [processTier, length_rankBySize]
      · trivial
  · rw [fixture_grouped]
  · rw [fixture_grouped]
  · rw [fixture_grouped]

/-- C7: when a (category, subcategory) pair contributes no catalog
entries, in that every tier list of it is empty or the pair is missing
from the nested catalog maps altogether, getTaskModelsGroupedByTier
returns the well-formed empty structure, with all four tiers present,
empty model lists, zero hidden counts and zero totals; as a total
function of the embedding it cannot throw, absence being expressed by
the returned counts. -/
theorem c7_empty_catalog_wellformed (d : ModelsData) (category subcategory : String)
    (hEmpty : ∀ tier, tierRaw d category subcategory tier = []) :
    ∀ (accuracyThreshold : ℚ) (deploymentTarget : Option String),
      getTaskModelsGroupedByTier d category subcategory accuracyThreshold deploymentTarget
        = emptyGrouped := by
  intro accuracyThreshold deploymentTarget
  rcases h : taskDataOf d category subcategory with _ | td
  · simp [getTaskModelsGroupedByTier, h]
  · have h2 : ∀ tier, (td tier).getD [] = [] := by
      intro tier
      have h3 := hEmpty tier
      unfold tierRaw at h3
      rw [h] at h3
      exact h3
    simp only [getTaskModelsGroupedByTier, h]
    simp [processTier, h2, tagForTier, filterByAccuracy_nil, filterByDeployment_nil,
      rankBySize, emptyGrouped]

theorem c7_witness :
    getTaskModelsGroupedByTier noCatalog "computer_vision" "no_such_task" 85 (some "browser")
      = emptyGrouped :=
  c7_empty_catalog_wellformed noCatalog "computer_vision" "no_such_task"
    (fun _ => rfl) 85 (some "browser")

/-- C4 counterexample: two distinct models of the same tier with equal
sizeMB. In the stable sort of the input with cexB first, cexA does not
rank before cexB although cexA.sizeMB is at most cexB.sizeMB, so the
biconditional of the claim fails at equal sizes. -/
theorem c4_counterexample :
    cexA.tier = cexB.tier ∧
    cexA.model.sizeMB ≤ cexB.model.sizeMB ∧
    cexA ∈ rankBySize [cexB, cexA] ∧
    cexB ∈ rankBySize [cexB, cexA] ∧
    ¬ ranksBefore (rankBySize [cexB, cexA]) cexA cexB := by
  have hBA : rankLE cexB cexA = true := by
    unfold rankLE jsCompare cexB cexA
    norm_num
  have hr : rankBySize [cexB, cexA] = [cexB, cexA] := by
    simp [rankBySize, rankInsert, hBA]
  refine ⟨rfl, le_refl _, ?_, ?_, ?_⟩
  · rw [hr]
    simp
  · rw [hr]
    simp
  · rw [hr]
    rintro ⟨i, j, hi, hj, hij, hga, hgb⟩
    simp only [List.length_cons, List.length_nil] at hi hj
    have hi2 : i = 0 := by omega
    have hj2 : j = 1 := by omega
    subst hi2
    subst hj2
    have hab : cexB = cexA := hga
    have hid : ("b" : String) = "a" := congrArg (fun m => m.model.id) hab
    exact absurd hid (by decide)

/-- C4 as amended: on a list of models tagged the way getTaskModels tags
them (tierPriority carrying the tier index), rankBySize orders its output
by the comparator throughout; for two same-tier models of distinct
sizeMB, one ranks before the other exactly when its sizeMB is smaller
(at equal sizeMB the stable sort keeps the input order instead, which is
what the counterexample exhibits); any model of a lower-priority tier
ranks before any model of a higher-priority tier regardless of size; and
the ordering reads nothing but tierPriority and sizeMB, so renaming every
other field commutes with ranking. -/
theorem c4_rank_lex_order (models : List TaggedModel)
    (htag : ∀ m ∈ models, m.tierPriority = some (tierIdx m.tier)) :
    (∀ (i j : ℕ) (hi : i < (rankBySize models).length)
       (hj : j < (rankBySize models).length), i < j →
       rankLE ((rankBySize models).get ⟨i, hi⟩) ((rankBySize models).get ⟨j, hj⟩) = true) ∧
    (∀ a b, a ∈ rankBySize models → b ∈ rankBySize models →
       a.tier = b.tier → a.model.sizeMB ≠ b.model.sizeMB →
       (ranksBefore (rankBySize models) a b ↔ a.model.sizeMB ≤ b.model.sizeMB)) ∧
    (∀ a b, a ∈ rankBySize models → b ∈ rankBySize models →
       tierIdx a.tier < tierIdx b.tier → ranksBefore (rankBySize models) a b) ∧
    (∀ f : TaggedModel → TaggedModel,
       (∀ m, (f m).tierPriority = m.tierPriority ∧ (f m).model.sizeMB = m.model.sizeMB) →
       rankBySize (models.map f) = (rankBySize models).map f) := by
  have htag2 : ∀ m ∈ rankBySize models, m.tierPriority = some (tierIdx m.tier) :=
    fun m hm => htag m ((mem_rankBySize m models).mp hm)
  have hsome : ∀ m ∈ models, m.tierPriority.isSome = true := by
    intro m hm
    rw [htag m hm]
    rfl
  have hp : (rankBySize models).Pairwise leP := pairwise_rankBySize models hsome
  have hsorted : ∀ (i j : ℕ) (hi : i < (rankBySize models).length)
      (hj : j < (rankBySize models).length), i < j →
      rankLE ((rankBySize models).get ⟨i, hi⟩) ((rankBySize models).get ⟨j, hj⟩) = true := by
    intro i j hi hj hij
    have h := List.pairwise_iff_getElem.mp hp i j hi hj hij
    simpa [leP, List.get_eq_getElem] using h
  refine ⟨hsorted, ?_, ?_, fun f hf => rankBySize_map f hf models⟩
  · intro a b ha hb htier hsize
    constructor
    · rintro ⟨i, j, hi, hj, hij, hga, hgb⟩
      have hle := hsorted i j hi hj hij
      rw [hga, hgb] at hle
      rcases (rankLE_some_iff a b _ _ (htag2 a ha) (htag2 b hb)).mp hle with hlt | ⟨-, hs⟩
      · rw [htier] at hlt
        exact absurd hlt (lt_irrefl _)
      · exact hs
    · intro hle
      have hslt : a.model.sizeMB < b.model.sizeMB := lt_of_le_of_ne hle hsize
      obtain ⟨na, hga⟩ := List.get_of_mem ha
      obtain ⟨nb, hgb⟩ := List.get_of_mem hb
      rcases lt_trichotomy (na : ℕ) (nb : ℕ) with h1 | h1 | h1
      · exact ⟨na, nb, na.isLt, nb.isLt, h1, hga, hgb⟩
      · exfalso
        have hnn : na = nb := Fin.ext h1
        rw [hnn, hgb] at hga
        rw [hga] at hslt
        exact lt_irrefl _ hslt
      · exfalso
        have hle2 := hsorted nb na nb.isLt na.isLt h1
        rw [Fin.eta, Fin.eta] at hle2
        rw [hga, hgb] at hle2
        rcases (rankLE_some_iff b a _ _ (htag2 b hb) (htag2 a ha)).mp hle2 with hlt | ⟨-, hs⟩
        · rw [htier] at hlt
          exact absurd hlt (lt_irrefl _)
        · exact absurd hs (not_le_of_lt hslt)
  · intro a b ha hb htlt
    obtain ⟨na, hga⟩ := List.get_of_mem ha
    obtain ⟨nb, hgb⟩ := List.get_of_mem hb
    rcases lt_trichotomy (na : ℕ) (nb : ℕ) with h1 | h1 | h1
    · exact ⟨na, nb, na.isLt, nb.isLt, h1, hga, hgb⟩
    · exfalso
      have hnn : na = nb := Fin.ext h1
      rw [hnn, hgb] at hga
      rw [hga] at htlt
      exact lt_irrefl _ htlt
    · exfalso
      have hle2 := hsorted nb na nb.isLt na.isLt h1
      rw [Fin.eta, Fin.eta] at hle2
      rw [hga, hgb] at hle2
      rcases (rankLE_some_iff b a _ _ (htag2 b hb) (htag2 a ha)).mp hle2 with hlt | ⟨heq, -⟩
      · exact absurd htlt (not_lt_of_gt hlt)
      · rw [heq] at htlt
        exact lt_irrefl _ htlt

theorem c4_witness :
    rankBySize ([witTagged].map id) = (rankBySize [witTagged]).map id :=
  (c4_rank_lex_order [witTagged] (by
      intro m hm
      rw [List.mem_singleton] at hm
      subst hm
      rfl)).2.2.2 id (fun _ => ⟨rfl, rfl⟩)

/-- C5: the shipped handleClassify has no confidence gate. In the
embedding-ready state, a result whose winning label carries confidence
0.10, far below the 0.70 policy threshold, is still written into the
pre-fill fields as the prediction; no needs-clarification transition
exists in the handler. -/
theorem c5_low_confidence_accepted_as_prefill :
    chooseRoute readyState = Route.embedding ∧
    (1 : ℚ)/10 < 70/100 ∧
    handleClassify readyState (.ok lowConfidenceResult) (.error "unused")
      = { readyState with
          prefillCategory := some "computer_vision",
          prefillSubcategory := some "image_classification",
          prefillConfidence := 1/10 } := by
  refine ⟨rfl, by norm_num, ?_⟩
  rfl

/-- C6: after an initialization that ends in error and never reports
ready, the session permanently routes to the fallback classifier: after
any number of classification calls the state still has usingFallback set
and routes the next call to the fallback; the outcomes the embedding
classifier would produce never influence the session, embedding the fact
that it is never invoked; and a call whose classifier outcome is an error
returns the state unchanged, the catch in the handler swallowing it, so
no call throws. -/
theorem c6_init_error_permanent_fallback :
    ∀ (events : List ProgressStatus)
      (calls : List (Except String ClassifyResult × Except String ClassifyResult)),
      (runCalls (initSession events false) calls).usingFallback = true ∧
      chooseRoute (runCalls (initSession events false) calls) = Route.fallback ∧
      (∀ calls2, calls.map Prod.snd = calls2.map Prod.snd →
         runCalls (initSession events false) calls
           = runCalls (initSession events false) calls2) ∧
      (∀ err : String,
         handleClassify (runCalls (initSession events false) calls) (.error err) (.error err)
           = runCalls (initSession events false) calls) := by
  intro events calls
  have h0 : (initSession events false).usingFallback = true :=
    initSession_failure_usingFallback events
  have h1 : (runCalls (initSession events false) calls).usingFallback = true :=
    runCalls_usingFallback _ h0 calls
  exact ⟨h1, chooseRoute_of_usingFallback _ h1,
    fun calls2 h2 => runCalls_indep _ h0 calls calls2 h2,
    fun err => handleClassify_error _ err⟩
